import Mathlib

/-!
Formalisation of the demonstration functions of the `common-mistakes`
notebook (`src/demo.ipynb`).

Modelling conventions, each taken from the Python source:

* Late-binding closures (`times_table`, the blur lambdas of
  `transform_image`): in Python every closure built inside the loop
  references the one loop variable of the enclosing frame, looked up at
  call time.  The embedding makes that variable an explicit first
  parameter of each stored closure; the loop is a fold that threads the
  current value of the variable alongside the list of closures, and when
  the enclosing function returns, every stored closure is applied to the
  variable's final value (the closures are only ever called after the
  loop has finished, so the final value is the one every call observes).

* The mutable default argument of `add_item`: Python allocates the
  default list once, at function definition time, and every call that
  omits `items` mutates that same object.  The embedding uses an explicit
  heap of list cells addressed by natural numbers; the default list lives
  at the fixed address `defaultRef`, and `add_item` returns the address
  of the list it mutated, so aliasing between the returned list and the
  default container is visible.

* Object identity in the integer-caching demo (`something`): a Python
  `int` held in a variable is modelled as a value paired with an object
  id; `==` compares values, `is` compares object ids.  CPython interns
  the small integers -5..256 interpreter-wide, and, independently,
  the compiler stores each distinct constant of a code object once in
  its constant table, so two occurrences of the same literal inside one
  function body denote the same object.
-/

/-! ### Late Binding Closures: `times_table` -/

/-- The body of the closure `multiplier` of `times_table`
(`def multiplier(x): return i * x`), with the late-bound free variable
`i` made an explicit first parameter. -/
def multiplier (i x : Int) : Int := i * x

/-- Embedding of `times_table`: the `for i in range(10)` loop is a fold
that threads the current value of `i` together with the list of stored
closures; each appended closure is `multiplier` itself, not applied to
the iteration's `i` (late binding: the closure captures the variable,
not its value).  On return the stored closures are applied to the final
value of `i`.  The initial `0` for `i` is never observed because
`range(10)` is non-empty. -/
def times_table : List (Int → Int) :=
  let final := (List.range 10).foldl
    (fun (acc : Int × List (Int → Int → Int)) (i : Nat) =>
      ((i : Int), acc.2 ++ [multiplier]))
    ((0 : Int), ([] : List (Int → Int → Int)))
  final.2.map (fun m => m final.1)

/-- After the loop the frame's `i` is `9`, so all ten stored closures
are `multiplier 9`. -/
theorem times_table_eq : times_table = List.replicate 10 (multiplier 9) := by
  rfl

/-! ### Mutable Default Arguments: `add_item` -/

/-- Heap of Python list objects, addressed by natural numbers. -/
def Heap : Type := Nat → List Int

/-- Contents of the list object at address `r`. -/
def heapGet (h : Heap) (r : Nat) : List Int := h r

/-- Overwrite the list object at address `r`. -/
def heapSet (h : Heap) (r : Nat) (v : List Int) : Heap :=
  fun s => if s = r then v else h s

/-- Address of the default list of `add_item`, allocated once when the
`def add_item(item, items=[])` statement is executed. -/
def defaultRef : Nat := 0

/-- Heap state right after the definition of `add_item`: the default
container exists and is empty. -/
def initHeap : Heap := fun _ => []

/-- Embedding of `add_item(item, items)`: `items.append(item)` mutates
the list object at address `items` in place, and the function returns
that same object (its address). -/
def add_item (h : Heap) (item : Int) (items : Nat) : Heap × Nat :=
  (heapSet h items (heapGet h items ++ [item]), items)

/-- A call `add_item(item)` that omits `items`: the parameter is bound
to the default list object allocated at definition time. -/
def add_item_default (h : Heap) (item : Int) : Heap × Nat :=
  add_item h item defaultRef

/-- Run a sequence of default-argument calls `add_item(x)` left to
right, returning the final heap. -/
def run_default_calls (h : Heap) (xs : List Int) : Heap :=
  xs.foldl (fun h x => (add_item_default h x).1) h

theorem heapGet_set_self (h : Heap) (r : Nat) (v : List Int) :
    heapGet (heapSet h r v) r = v := by
  simp [heapGet, heapSet]

theorem heapGet_set_ne (h : Heap) (r s : Nat) (v : List Int)
    (hne : s ≠ r) : heapGet (heapSet h r v) s = heapGet h s := by
  simp [heapGet, heapSet, hne]

theorem add_item_default_get (h : Heap) (x : Int) :
    heapGet (add_item_default h x).1 defaultRef
      = heapGet h defaultRef ++ [x] := by
  simp [add_item_default, add_item, heapGet_set_self]

/-- A run of default-argument calls appends the items, in order, to the
default container. -/
theorem run_default_calls_default (ys : List Int) : ∀ h : Heap,
    heapGet (run_default_calls h ys) defaultRef
      = heapGet h defaultRef ++ ys := by
  induction ys with
  | nil => intro h; simp [run_default_calls]
  | cons y ys ih =>
      intro h
      show heapGet (run_default_calls (add_item_default h y).1 ys) defaultRef = _
      rw [ih, add_item_default_get]
      simp

/-! ### The image pipeline: `create_pipeline`, `blur_operations`,
`transform_image` -/

/-- Embedding of `SIGMAS = list(range(1, 10))`. -/
def SIGMAS : List Int := (List.range' 1 9).map (fun n => (n : Int))

/-- Embedding of `create_pipeline(*operations)`: the returned `pipeline`
rebinds `data` to `operation(data)` for each operation in order. -/
def create_pipeline {α : Type} (operations : List (α → α)) (data : α) : α :=
  operations.foldl (fun d op => op d) data

/-- The left-to-right composition of a list of functions, written as the
claim about `create_pipeline` states it (the spec side of the
refinement): zero operations give the input unchanged, and
`f1 :: rest` applies `f1` first and then the rest. -/
def composeAll {α : Type} : List (α → α) → α → α
  | [], x => x
  | f :: fs, x => composeAll fs (f x)

/-- Embedding of the list comprehension
`[(lambda image: gaussian_filter(image, sigma+1)) for sigma in SIGMAS]`
of `transform_image`.  The comprehension variable `sigma` is one
variable shared by all the lambdas, looked up at call time, so as in
`times_table` the fold threads the current value of `sigma` beside the
stored closures (each of which takes `sigma` as an explicit first
parameter) and applies the stored closures to the final value of
`sigma` once the comprehension has finished.  `gaussian_filter` comes
from scipy, so it is an abstract parameter, as is the array type. -/
def blur_operations {Arr : Type} (gaussian_filter : Arr → Int → Arr) :
    List (Arr → Arr) :=
  let final := SIGMAS.foldl
    (fun (acc : Int × List (Int → Arr → Arr)) (sigma : Int) =>
      (sigma, acc.2 ++ [fun s image => gaussian_filter image (s + 1)]))
    ((0 : Int), ([] : List (Int → Arr → Arr)))
  final.2.map (fun f => f final.1)

/-- The final value of `sigma` is `9`, so all nine stored lambdas blur
with `sigma + 1 = 10`. -/
theorem blur_operations_eq {Arr : Type} (gaussian_filter : Arr → Int → Arr) :
    blur_operations gaussian_filter
      = List.replicate 9 (fun image => gaussian_filter image 10) := by
  rfl

/-- Embedding of `transform_image(image_path)`.  The image and array
types and the library primitives (PIL's open-and-convert, numpy's array
conversion and clipping, scipy's `gaussian_filter`, and the notebook's
numpy-based `normalize` and `add_noise`) are abstract parameters;
opening the image file is the one step that can fail, so it returns an
`Except`.  Every step after the open is the straight-line code of the
source: build `blur_operations`, prepend `normalize` and `add_noise`,
make the pipeline, run it, convert back to an image. -/
def transform_image {Img Arr : Type}
    (openConvertL : String → Except String Img)
    (toArray : Img → Arr)
    (gaussian_filter : Arr → Int → Arr)
    (normalize : Arr → Arr)
    (add_noise : Arr → Arr)
    (clipScaleFromArray : Arr → Img)
    (image_path : String) : Except String Img :=
  match openConvertL image_path with
  | .error e => .error e
  | .ok image =>
      let image_np := toArray image
      let blur_ops := blur_operations gaussian_filter
      let operations := [normalize, add_noise] ++ blur_ops
      let pipeline := create_pipeline operations
      let processed_image_np := pipeline image_np
      .ok (clipScaleFromArray processed_image_np)

/-! ### Claims about `times_table` and `add_item` -/

/-- Claim C1: every closure in the list returned by `times_table` looks
up the loop variable at call time, so any two functions in the returned
list agree on every input. -/
theorem times_table_closures_agree (f g : Int → Int)
    (hf : f ∈ times_table) (hg : g ∈ times_table) (x : Int) :
    f x = g x := by
  rw [times_table_eq] at hf hg
  rw [List.eq_of_mem_replicate hf, List.eq_of_mem_replicate hg]

theorem times_table_closures_agree_witness :
    multiplier 9 ∈ times_table ∧ multiplier 9 5 = multiplier 9 5 :=
  have hm : multiplier 9 ∈ times_table := by
    rw [times_table_eq]
    exact List.mem_replicate.mpr ⟨by decide, rfl⟩
  ⟨hm, times_table_closures_agree (multiplier 9) (multiplier 9) hm hm 5⟩

/-- Claim C6: `times_table` returns exactly 10 functions, and the
function at every index returns `9 * x` on input `x` (the final value
of the loop variable times the input, not the index times the input). -/
theorem times_table_returns_nine_times (i : Fin times_table.length)
    (x : Int) :
    times_table.length = 10 ∧ times_table.get i x = 9 * x := by
  refine ⟨by rw [times_table_eq]; rfl, ?_⟩
  have hmem : times_table.get i ∈ times_table := times_table.get_mem i.1 i.2
  have key : ∀ f ∈ times_table, f x = 9 * x := by
    intro f hf
    rw [times_table_eq] at hf
    rw [List.eq_of_mem_replicate hf]
    rfl
  exact key _ hmem

/-- Claim C2: for a run of calls `add_item(x1), ..., add_item(xn)` that
all omit the `items` argument, the n-th call returns the list
`[x1, ..., xn]`: the returned object is the default container, whose
contents at that moment are all n items in order. -/
theorem add_item_default_nth_call (xs : List Int) (x : Int) :
    heapGet (add_item_default (run_default_calls initHeap xs) x).1
            (add_item_default (run_default_calls initHeap xs) x).2
      = xs ++ [x] := by
  have h2 : (add_item_default (run_default_calls initHeap xs) x).2
      = defaultRef := rfl
  rw [h2, add_item_default_get, run_default_calls_default]
  simp [initHeap, heapGet]

/-- Claim C5: every default-argument call returns the shared default
container, so a reference obtained from an earlier default call reads
all items appended by later default calls: after earlier calls `xs`,
the call `add_item(x)` returns a reference which, once the later calls
`ys` have run, reads `xs ++ [x] ++ ys`. -/
theorem default_reference_observes_later (xs : List Int) (x : Int)
    (ys : List Int) :
    heapGet
      (run_default_calls
        (add_item_default (run_default_calls initHeap xs) x).1 ys)
      (add_item_default (run_default_calls initHeap xs) x).2
      = (xs ++ [x]) ++ ys := by
  have h2 : (add_item_default (run_default_calls initHeap xs) x).2
      = defaultRef := rfl
  rw [h2, run_default_calls_default, add_item_default_get,
     run_default_calls_default]
  simp [initHeap, heapGet]

/-! ### Claims about the image pipeline -/

/-- Claim C4: the blur lambdas close over the comprehension variable
`sigma`, not its per-iteration value, so `blur_operations` holds nine
functions and every one of them applies `gaussian_filter` with the same
sigma, the final value of `sigma` plus one, that is `10`. -/
theorem blur_operations_uniform {Arr : Type}
    (gaussian_filter : Arr → Int → Arr) (f : Arr → Arr)
    (hf : f ∈ blur_operations gaussian_filter) (img : Arr) :
    (blur_operations gaussian_filter).length = 9 ∧
      f img = gaussian_filter img 10 := by
  rw [blur_operations_eq] at hf ⊢
  rw [List.eq_of_mem_replicate hf]
  exact ⟨rfl, rfl⟩

theorem blur_operations_uniform_witness :
    (fun img : Int => img + 10) ∈ blur_operations (fun a s : Int => a + s) ∧
      ((blur_operations (fun a s : Int => a + s)).length = 9 ∧
        (fun img : Int => img + 10) 3 = (fun a s : Int => a + s) 3 10) :=
  have hm : (fun img : Int => img + 10)
      ∈ blur_operations (fun a s : Int => a + s) := by
    rw [blur_operations_eq]
    exact List.mem_replicate.mpr ⟨by decide, rfl⟩
  ⟨hm, blur_operations_uniform (fun a s : Int => a + s)
    (fun img : Int => img + 10) hm 3⟩

/-- Claim C8: the function returned by `create_pipeline(f1, ..., fn)`
is the left-to-right composition of the operations, and with zero
operations it returns its input unchanged. -/
theorem create_pipeline_spec {α : Type} (ops : List (α → α)) (x : α) :
    create_pipeline ops x = composeAll ops x ∧
      create_pipeline ([] : List (α → α)) x = x := by
  refine ⟨?_, rfl⟩
  induction ops generalizing x with
  | nil => rfl
  | cons f fs ih => exact ih (f x)

/-- Claim C10: `transform_image` handles no errors: whatever the later
pipeline steps are, when opening the image file fails the failure
propagates to the caller and no later step is applied (the result is
the open step's error, for every choice of the remaining functions). -/
theorem transform_image_propagates {Img Arr : Type}
    (openConvertL : String → Except String Img)
    (toArray : Img → Arr)
    (gaussian_filter : Arr → Int → Arr)
    (normalize : Arr → Arr)
    (add_noise : Arr → Arr)
    (clipScaleFromArray : Arr → Img)
    (image_path : String) (e : String)
    (hopen : openConvertL image_path = .error e) :
    transform_image openConvertL toArray gaussian_filter normalize
      add_noise clipScaleFromArray image_path = .error e := by
  simp only [transform_image, hopen]

/-- An always-failing open step, standing for a missing image file. -/
def failing_open : String → Except String Unit :=
  fun _ => Except.error "missing"

theorem transform_image_propagates_witness :
    failing_open "./image.png" = Except.error "missing" ∧
      transform_image failing_open (fun u => u) (fun u _ => u)
        (fun u => u) (fun u => u) (fun u => u) "./image.png"
        = Except.error "missing" :=
  ⟨rfl, transform_image_propagates failing_open (fun u => u) (fun u _ => u)
    (fun u => u) (fun u => u) (fun u => u) "./image.png" "missing" rfl⟩

/-! ### Integer Caching: `something` -/

/-- A Python `int` as seen by the `is` and `==` operators: a value
together with the object id of the heap object the variable refers
to. -/
structure PyInt where
  value : Int
  objId : Nat

/-- The `==` operator on ints compares values. -/
def pyEq (a b : PyInt) : Bool := a.value == b.value

/-- The `is` operator compares object identity. -/
def pyIs (a b : PyInt) : Bool := a.objId == b.objId

/-- Object ids of the interpreter-wide cache of the small integers
-5..256 (any injective numbering of them works). -/
def smallIntId (n : Int) : Nat := (n + 5).toNat

/-- The literal `10` of `something`: a small integer, so it is the
interpreter-wide cached object, and in any case the CPython compiler
stores each distinct constant of a code object once, so every
occurrence of `10` in the body of `something` is this one object. -/
def const10 : PyInt := ⟨10, smallIntId 10⟩

/-- The literal `123456` of `something`: not a cached small integer,
so it is a fresh heap object — but the CPython compiler deduplicates
the constant table of a code object by value, so the `123456` of
`c = 123456` and the `123456` of `c is 123456` are the SAME constant
table entry and hence the same object.  Its id is any id outside the
small-integer cache. -/
def const123456 : PyInt := ⟨123456, 1000⟩

/-- Embedding of `something()`: `a = 10` binds `a` to the constant
object `10` of the code object; `c = 123456` binds `c` to the constant
object `123456`; the four printed booleans are returned in order:
`a == 10`, `a is 10`, `c == 123456`, `c is 123456`. -/
def something : List Bool :=
  let a := const10
  let c := const123456
  [pyEq a const10, pyIs a const10, pyEq c const123456, pyIs c const123456]

/-- Claim C3 (what the code actually prints): `something` prints True
four times.  `a is 10` is True both because 10 is a cached small
integer and because both occurrences of the literal are the same
constant of the code object; `c is 123456` is ALSO True, because both
occurrences of `123456` sit in the single deduplicated constant table
of the code object of `something`, contradicting the claim that the
last comparison is False. -/
theorem something_prints : something = [true, true, true, true] := by
  decide

/-! ### Claim C7: `add_item` with an explicit list argument -/

/-- Claim C7, counterexample to the frame condition as stated: the
list returned by a default-argument call is the default container
itself, and passing it explicitly (`v = add_item(1); add_item(2, v)`)
mutates the default container, so an explicit-argument call does not
always leave the default container unchanged. -/
theorem add_item_explicit_counterexample :
    (add_item_default initHeap 1).2 = defaultRef ∧
      heapGet
        (add_item (add_item_default initHeap 1).1 2
          (add_item_default initHeap 1).2).1 defaultRef
        ≠ heapGet (add_item_default initHeap 1).1 defaultRef := by
  constructor
  · rfl
  · intro h
    simp [add_item, add_item_default, heapGet, heapSet, defaultRef,
      initHeap] at h

/-- Claim C7 (amended): for every list passed explicitly as `items`
that is not the default container itself, `add_item(x, ys)` appends
`x` to that list, returns that same list, and leaves the default
container unchanged. -/
theorem add_item_explicit_spec (h : Heap) (r : Nat) (x : Int)
    (hr : r ≠ defaultRef) :
    (add_item h x r).2 = r ∧
      heapGet (add_item h x r).1 r = heapGet h r ++ [x] ∧
      heapGet (add_item h x r).1 defaultRef = heapGet h defaultRef := by
  refine ⟨rfl, ?_, ?_⟩
  · simp [add_item, heapGet_set_self]
  · simp [add_item]
    exact heapGet_set_ne h r defaultRef _ (fun hdr => hr hdr.symm)

theorem add_item_explicit_spec_witness :
    (1 : Nat) ≠ defaultRef ∧
      ((add_item (heapSet initHeap 1 [5]) 7 1).2 = 1 ∧
        heapGet (add_item (heapSet initHeap 1 [5]) 7 1).1 1
          = heapGet (heapSet initHeap 1 [5]) 1 ++ [7] ∧
        heapGet (add_item (heapSet initHeap 1 [5]) 7 1).1 defaultRef
          = heapGet (heapSet initHeap 1 [5]) defaultRef) :=
  ⟨by decide, add_item_explicit_spec (heapSet initHeap 1 [5]) 1 7 (by decide)⟩

/-! ### Claim C9: the three demonstrations share no runtime state -/

/-- Running the `times_table` demo in a notebook session: it reads and
writes nothing but its own locals, so as a state transformer over the
heap of list objects it returns its (state-independent) result and
leaves the heap alone. -/
def times_table_run (h : Heap) : List (Int → Int) × Heap :=
  (times_table, h)

/-- Running the `something` demo in a notebook session: likewise pure
with respect to the heap of list objects. -/
def something_run (h : Heap) : List Bool × Heap :=
  (something, h)

/-- One notebook-level call of any of the three demonstrations (the
image demo's `transform_image` touches only the image file, not the
heap of list objects, and is covered by the two pure runners; the two
forms of `add_item` are the only heap writers). -/
inductive DemoCall where
  | addDefault (x : Int)
  | addExplicit (x : Int) (r : Nat)
  | timesTable
  | runSomething

/-- Heap effect of one notebook-level call. -/
def stepCall (h : Heap) : DemoCall → Heap
  | .addDefault x => (add_item_default h x).1
  | .addExplicit x r => (add_item h x r).1
  | .timesTable => (times_table_run h).2
  | .runSomething => (something_run h).2

/-- Run an interleaving of notebook-level calls. -/
def runCalls (h : Heap) (cs : List DemoCall) : Heap :=
  cs.foldl stepCall h

/-- Whether a call is one of the two forms of `add_item`. -/
def isAddItem : DemoCall → Bool
  | .addDefault _ => true
  | .addExplicit _ _ => true
  | .timesTable => false
  | .runSomething => false

/-- Claim C9: under every interleaving of calls, the demonstrations
share no runtime state: the closures `times_table` returns and the
booleans `something` prints are the same whatever `add_item` calls have
run, and the heap (in particular `add_item`'s default container) is
exactly what the `add_item` calls alone produce — `times_table` and
`something` leave it untouched. -/
theorem demos_share_no_state (cs : List DemoCall) (h : Heap) :
    (times_table_run (runCalls h cs)).1 = times_table ∧
      (something_run (runCalls h cs)).1 = something ∧
      runCalls h cs = runCalls h (cs.filter isAddItem) := by
  refine ⟨rfl, rfl, ?_⟩
  induction cs generalizing h with
  | nil => rfl
  | cons c cs ih =>
      cases c with
      | addDefault x => exact ih ((add_item_default h x).1)
      | addExplicit x r => exact ih ((add_item h x r).1)
      | timesTable => exact ih h
      | runSomething => exact ih h
